import Mathlib

/-!
Verification of the SecurityKit-Android artifact signing scripts.

Bytes are modelled as `Nat` values (kept below 256 by construction), byte
sequences as `List Nat`.  SHA-256 and HMAC-SHA256 are implemented in full
(FIPS 180-4 / RFC 2104) and validated against the standard test vectors.
The three Python scripts (`generate_apk_hmac.py`, `generate_secure_signature.py`,
`sign_config_hmac.py`) are embedded as pure functions over these byte
sequences; file and environment access is passed in explicitly.
-/

namespace SecurityKit

/-- Reduce to a 32-bit word. -/
def w32 (x : Nat) : Nat := x % 4294967296

/-- Right rotation of a 32-bit word. -/
def rotr (n x : Nat) : Nat := w32 ((x >>> n) ||| (x <<< (32 - n)))

def smallSigma0 (x : Nat) : Nat := (rotr 7 x) ^^^ (rotr 18 x) ^^^ (x >>> 3)

def smallSigma1 (x : Nat) : Nat := (rotr 17 x) ^^^ (rotr 19 x) ^^^ (x >>> 10)

def bigSigma0 (x : Nat) : Nat := (rotr 2 x) ^^^ (rotr 13 x) ^^^ (rotr 22 x)

def bigSigma1 (x : Nat) : Nat := (rotr 6 x) ^^^ (rotr 11 x) ^^^ (rotr 25 x)

def chWord (x y z : Nat) : Nat := (x &&& y) ^^^ ((x ^^^ 4294967295) &&& z)

def majWord (x y z : Nat) : Nat := (x &&& y) ^^^ (x &&& z) ^^^ (y &&& z)

/-- The 64 SHA-256 round constants (FIPS 180-4 §4.2.2), as decimal words. -/
def K256 : List Nat :=
  [1116352408, 1899447441, 3049323471, 3921009573, 961987163, 1508970993,
   2453635748, 2870763221, 3624381080, 310598401, 607225278, 1426881987,
   1925078388, 2162078206, 2614888103, 3248222580, 3835390401, 4022224774,
   264347078, 604807628, 770255983, 1249150122, 1555081692, 1996064986,
   2554220882, 2821834349, 2952996808, 3210313671, 3336571891, 3584528711,
   113926993, 338241895, 666307205, 773529912, 1294757372, 1396182291,
   1695183700, 1986661051, 2177026350, 2456956037, 2730485921, 2820302411,
   3259730800, 3345764771, 3516065817, 3600352804, 4094571909, 275423344,
   430227734, 506948616, 659060556, 883997877, 958139571, 1322822218,
   1537002063, 1747873779, 1955562222, 2024104815, 2227730452, 2361852424,
   2428436474, 2756734187, 3204031479, 3329325298]

/-- Big-endian byte expansion, most significant byte first. -/
def beBytes : Nat → Nat → List Nat
  | 0, _ => []
  | n + 1, x => beBytes n (x >>> 8) ++ [x % 256]

/-- SHA-256 padding: append 0x80, zero bytes, then the 64-bit big-endian bit length. -/
def padMessage (msg : List Nat) : List Nat :=
  msg ++ [128] ++ List.replicate ((119 - msg.length % 64) % 64) 0 ++ beBytes 8 (8 * msg.length)

/-- Group bytes into big-endian 32-bit words. -/
def bytesToWords : List Nat → List Nat
  | a :: b :: c :: d :: rest => ((a <<< 24) ||| (b <<< 16) ||| (c <<< 8) ||| d) :: bytesToWords rest
  | _ => []

/-- One step of the message-schedule extension, operating on the reversed schedule. -/
def scheduleStep (rw : List Nat) : List Nat :=
  w32 (smallSigma1 (rw.getD 1 0) + rw.getD 6 0 + smallSigma0 (rw.getD 14 0) + rw.getD 15 0) :: rw

/-- Extend the 16 words of a block to the 64-word message schedule. -/
def schedule (ws : List Nat) : List Nat :=
  ((List.range 48).foldl (fun rw _ => scheduleStep rw) ws.reverse).reverse

/-- The SHA-256 working state: eight 32-bit words. -/
structure HSt where
  a : Nat
  b : Nat
  c : Nat
  d : Nat
  e : Nat
  f : Nat
  g : Nat
  h : Nat

/-- The SHA-256 initial hash value (FIPS 180-4 §5.3.3), as decimal words. -/
def initH : HSt :=
  ⟨1779033703, 3144134277, 1013904242, 2773480762,
   1359893119, 2600822924, 528734635, 1541459225⟩

/-- One SHA-256 compression round. -/
def round256 (s : HSt) (kw : Nat × Nat) : HSt :=
  let t1 := w32 (s.h + bigSigma1 s.e + chWord s.e s.f s.g + kw.1 + kw.2)
  let t2 := w32 (bigSigma0 s.a + majWord s.a s.b s.c)
  ⟨w32 (t1 + t2), s.a, s.b, s.c, w32 (s.d + t1), s.e, s.f, s.g⟩

/-- Compress one 64-byte block into the chaining state. -/
def compressBlock (s : HSt) (block : List Nat) : HSt :=
  let ws := schedule (bytesToWords block)
  let t := (K256.zip ws).foldl round256 s
  ⟨w32 (s.a + t.a), w32 (s.b + t.b), w32 (s.c + t.c), w32 (s.d + t.d),
   w32 (s.e + t.e), w32 (s.f + t.f), w32 (s.g + t.g), w32 (s.h + t.h)⟩

/-- Fuel-driven worker for `readChunks`; the fuel bounds the number of chunks taken
and is structurally decreasing, so the function evaluates inside the kernel. -/
def readChunksAux (n : Nat) : Nat → List α → List (List α)
  | _, [] => []
  | 0, _ :: _ => []
  | fuel + 1, x :: xs =>
      if n = 0 then [] else (x :: xs).take n :: readChunksAux n fuel ((x :: xs).drop n)

/-- Split a list into consecutive chunks of `n` elements (the last chunk may be
shorter), as the loop `for chunk in iter(lambda: f.read(8192), b"")` reads a file.
Chunk size 0 yields no chunks, as `f.read(0)` returns the sentinel at once. -/
def readChunks (n : Nat) (l : List α) : List (List α) :=
  readChunksAux n l.length l

def wordBytes (x : Nat) : List Nat :=
  [(x >>> 24) % 256, (x >>> 16) % 256, (x >>> 8) % 256, x % 256]

def stateBytes (s : HSt) : List Nat :=
  wordBytes s.a ++ wordBytes s.b ++ wordBytes s.c ++ wordBytes s.d ++
  wordBytes s.e ++ wordBytes s.f ++ wordBytes s.g ++ wordBytes s.h

/-- SHA-256 of a byte sequence: the 32-byte digest (FIPS 180-4), validated against
the standard test vectors for the empty string, "abc", "hello world" and a
two-block message. -/
def sha256 (msg : List Nat) : List Nat :=
  stateBytes ((readChunks 64 (padMessage msg)).foldl compressBlock initH)

/-- Lowercase hexadecimal digit. -/
def hexDigitChar (n : Nat) : Char :=
  if n < 10 then Char.ofNat (48 + n) else Char.ofNat (87 + n)

def byteHexChars (b : Nat) : List Char :=
  [hexDigitChar ((b / 16) % 16), hexDigitChar (b % 16)]

/-- Lowercase hex encoding of a byte sequence, as Python's `hexdigest()` returns it. -/
def bytesToHex (l : List Nat) : String :=
  String.mk (l.map byteHexChars).flatten

/-- UTF-8 encoding of one character. -/
def utf8Char (c : Char) : List Nat :=
  let n := c.toNat
  if n < 128 then [n]
  else if n < 2048 then [192 + n / 64, 128 + n % 64]
  else if n < 65536 then [224 + n / 4096, 128 + (n / 64) % 64, 128 + n % 64]
  else [240 + n / 262144, 128 + (n / 4096) % 64, 128 + (n / 64) % 64, 128 + n % 64]

/-- UTF-8 encoding of a string, as Python's `str.encode("utf-8")`. -/
def utf8Encode (s : String) : List Nat :=
  (s.data.map utf8Char).flatten

/-- HMAC-SHA256 (RFC 2104) with the SHA-256 block size of 64 bytes, validated
against the RFC 4231 test vectors including the longer-than-block-size key case. -/
def hmacSha256 (key msg : List Nat) : List Nat :=
  let k0 := if key.length > 64 then sha256 key else key
  let kp := k0 ++ List.replicate (64 - k0.length) 0
  let ipadKey := kp.map (fun b => b ^^^ 54)
  let opadKey := kp.map (fun b => b ^^^ 92)
  sha256 (opadKey ++ sha256 (ipadKey ++ msg))

/-- HMAC-SHA256 as a lowercase hex string, as `hmac.new(key, msg, sha256).hexdigest()`. -/
def hmacSha256Hex (key msg : List Nat) : String :=
  bytesToHex (hmacSha256 key msg)

/-! Embedding of `scripts/generate_apk_hmac.py`.

A `hashlib.sha256()` object is modelled extensionally by the bytes fed to it so
far: per the hashlib contract, `m.update(a); m.update(b)` is equivalent to
`m.update(a + b)`, so the object's observable state is the concatenation of all
updates and `hexdigest()` is the hash of that concatenation. -/

/-- State of a `hashlib.sha256()` object: the bytes accumulated by `update` calls. -/
structure Sha256Obj where
  acc : List Nat

/-- `m.update(chunk)` on a `hashlib.sha256()` object. -/
def shaUpdate (m : Sha256Obj) (chunk : List Nat) : Sha256Obj :=
  ⟨m.acc ++ chunk⟩

/-- `m.hexdigest()` on a `hashlib.sha256()` object. -/
def shaHexdigest (m : Sha256Obj) : String :=
  bytesToHex (sha256 m.acc)

/-- The body of `calculate_apk_hash` for an arbitrary chunk size: feed the file
to a fresh `hashlib.sha256()` object chunk by chunk and return the hex digest. -/
def streamApkHash (chunkSize : Nat) (apkBytes : List Nat) : String :=
  shaHexdigest ((readChunks chunkSize apkBytes).foldl shaUpdate ⟨[]⟩)

/-- `calculate_apk_hash`: SHA-256 of the APK file, streamed in 8192-byte chunks. -/
def calculate_apk_hash (apkBytes : List Nat) : String :=
  streamApkHash 8192 apkBytes

/-- `generate_hmac_signature`: HMAC-SHA256 over the UTF-8 bytes of the APK's hex
digest, returned together with the digest. -/
def generate_hmac_signature (apkBytes key : List Nat) : String × String :=
  let apk_hash := calculate_apk_hash apkBytes
  let hmac_signature := hmacSha256Hex key (utf8Encode apk_hash)
  (hmac_signature, apk_hash)

/-- A JSON-serializable field value in the signature record. -/
inductive JVal where
  | str : String → JVal
  | num : Nat → JVal
deriving DecidableEq

/-- `create_signature_data`: the structured signature record, in the source's
field order.  `apk_file.name` and `apk_file.absolute()` are filesystem
resolutions and enter as parameters. -/
def create_signature_data (apk_file_name apk_abs_path apk_hash hmac_signature key_type : String)
    (timestamp : Nat) : List (String × JVal) :=
  [("apk_file", JVal.str apk_file_name),
   ("apk_path", JVal.str apk_abs_path),
   ("apk_hash", JVal.str apk_hash),
   ("hmac_signature", JVal.str hmac_signature),
   ("key_type", JVal.str key_type),
   ("timestamp", JVal.num timestamp),
   ("algorithm", JVal.str "HMAC-SHA256"),
   ("hash_algorithm", JVal.str "SHA-256"),
   ("version", JVal.str "1.0.0")]

/-- What `main` persists: the structured record (`save_signature_data`) or the
bare tag text (`save_signature_only`). -/
inductive WrittenArtifact where
  | structured : List (String × JVal) → WrittenArtifact
  | bare : String → WrittenArtifact
deriving DecidableEq

/-- Python's `str.endswith(sfx)`: the last characters of `s` are exactly `sfx`. -/
def pyEndsWith (s sfx : String) : Bool :=
  s.data.reverse.take sfx.data.length == sfx.data.reverse

/-- The output dispatch in `main`: the structured record goes to paths ending in
`.json`, otherwise only the tag text is written. -/
def main_write (output_path : String) (signature_data : List (String × JVal))
    (hmac_signature : String) : WrittenArtifact :=
  if pyEndsWith output_path ".json" then WrittenArtifact.structured signature_data
  else WrittenArtifact.bare hmac_signature

/-! Embedding of `scripts/generate_secure_signature.py`. -/

/-- `generate_device_bound_key_simulation`: SHA-256 of the UTF-8 binding string
`"<device_id>:<package_name>:SecurityModule:HMAC"`. -/
def generate_device_bound_key_simulation (device_id package_name : String) : List Nat :=
  sha256 (utf8Encode (device_id ++ ":" ++ package_name ++ ":SecurityModule:HMAC"))

/-- `compute_hmac_sha256(data, key)`: HMAC-SHA256 as a hex string. -/
def compute_hmac_sha256 (data key : List Nat) : String :=
  hmacSha256Hex key data

/-- Character-by-character equality with its comparison count: the semantics of
the `signature == expected_signature` check in `generate_secure_signature.py`,
which examines characters left to right and stops at the first mismatch.
The second component counts the character comparisons performed. -/
def strEqWithCost : List Char → List Char → Bool × Nat
  | [], [] => (true, 0)
  | [], _ :: _ => (false, 0)
  | _ :: _, [] => (false, 0)
  | a :: as, b :: bs =>
      if a = b then let r := strEqWithCost as bs; (r.1, r.2 + 1) else (false, 1)

/-- The verification comparison performed by `main` in
`generate_secure_signature.py`: Python string equality on the two tag strings,
together with the number of character comparisons it executes. -/
def signatureEqCheck (signature expected : String) : Bool × Nat :=
  strEqWithCost signature.data expected.data

/-! Embedding of `scripts/sign_config_hmac.py`. -/

/-- `hmac_sha256_hex(data, key)` from `sign_config_hmac.py`. -/
def hmac_sha256_hex (data key : List Nat) : String :=
  bytesToHex (hmacSha256 key data)

/-- The mutually exclusive key source selected on the command line. -/
inductive KeySource where
  | literal : String → KeySource
  | envVar : String → KeySource
  | keyFile : String → KeySource
deriving DecidableEq

/-- How an invocation of `sign_config_hmac.py` can fail before writing a tag:
`keyUnavailable` is the checked `sys.exit(2)` on a missing or empty environment
variable, `ioError` an unreadable key or config file. -/
inductive SignError where
  | keyUnavailable : SignError
  | ioError : SignError
deriving DecidableEq

/-- Python byte-level whitespace, the characters removed by `bytes.strip()`. -/
def isPyWs (b : Nat) : Bool :=
  b == 9 || b == 10 || b == 11 || b == 12 || b == 13 || b == 32

/-- `bytes.strip()` with no argument: remove leading and trailing whitespace. -/
def pyStrip (l : List Nat) : List Nat :=
  (((l.dropWhile isPyWs).reverse.dropWhile isPyWs)).reverse

/-- The key-loading block of `main` in `sign_config_hmac.py` (lines 38-48):
a literal key is UTF-8 encoded as given; an environment value that is missing or
empty (`if not val`) exits with code 2; a key file is read fully and stripped.
The environment and filesystem enter as explicit lookup functions. -/
def loadKey (src : KeySource) (env : String → Option String)
    (fs : String → Option (List Nat)) : Except SignError (List Nat) :=
  match src with
  | KeySource.literal s => Except.ok (utf8Encode s)
  | KeySource.envVar name =>
      match env name with
      | none => Except.error SignError.keyUnavailable
      | some v => if v = "" then Except.error SignError.keyUnavailable else Except.ok (utf8Encode v)
  | KeySource.keyFile path =>
      match fs path with
      | none => Except.error SignError.ioError
      | some contents => Except.ok (pyStrip contents)

/-- `main` of `sign_config_hmac.py`: load the key, then tag the raw config bytes
with HMAC-SHA256.  An error result models the non-zero process exit, reached
before any tag is computed. -/
def sign_config_main (src : KeySource) (env : String → Option String)
    (fs : String → Option (List Nat)) (configBytes : List Nat) : Except SignError String :=
  match loadKey src env fs with
  | Except.error e => Except.error e
  | Except.ok key => Except.ok (hmac_sha256_hex configBytes key)

/-! Auxiliary lemmas. -/

theorem readChunksAux_flatten {α : Type} (n : Nat) (hn : 0 < n) :
    ∀ (fuel : Nat) (l : List α), l.length ≤ fuel → (readChunksAux n fuel l).flatten = l := by
  intro fuel
  induction fuel with
  | zero =>
      intro l hl
      have hnil : l = [] := List.length_eq_zero.mp (Nat.le_zero.mp hl)
      subst hnil
      rfl
  | succ fuel ih =>
      intro l hl
      match l with
      | [] => rfl
      | x :: xs =>
          have hne : n ≠ 0 := Nat.pos_iff_ne_zero.mp hn
          simp only [readChunksAux, if_neg hne, List.flatten_cons]
          rw [ih ((x :: xs).drop n) ?_]
          · exact List.take_append_drop n (x :: xs)
          · rw [List.length_drop]
            simp only [List.length_cons] at hl ⊢
            omega

theorem readChunks_flatten {α : Type} (n : Nat) (hn : 0 < n) (l : List α) :
    (readChunks n l).flatten = l :=
  readChunksAux_flatten n hn l.length l le_rfl

theorem foldl_shaUpdate (cs : List (List Nat)) :
    ∀ acc : List Nat, cs.foldl shaUpdate ⟨acc⟩ = ⟨acc ++ cs.flatten⟩ := by
  induction cs with
  | nil => intro acc; simp
  | cons c cs ih =>
      intro acc
      simp only [List.foldl_cons, shaUpdate, List.flatten_cons, ih, List.append_assoc]

theorem streamApkHash_eq (n : Nat) (hn : 0 < n) (bytes : List Nat) :
    streamApkHash n bytes = bytesToHex (sha256 bytes) := by
  unfold streamApkHash shaHexdigest
  rw [foldl_shaUpdate]
  simp [readChunks_flatten n hn]

theorem sha256_length (msg : List Nat) : (sha256 msg).length = 32 := by
  simp [sha256, stateBytes, wordBytes]

theorem strEqWithCost_eq_iff : ∀ s t : List Char, (strEqWithCost s t).1 = true ↔ s = t := by
  intro s
  induction s with
  | nil => intro t; cases t <;> simp [strEqWithCost]
  | cons a as ih =>
      intro t
      cases t with
      | nil => simp [strEqWithCost]
      | cons b bs =>
          by_cases hab : a = b
          · subst hab; simp [strEqWithCost, ih]
          · simp [strEqWithCost, hab]

theorem dropWhile_decomp {α : Type} (p : α → Bool) (l : List α) :
    ∃ t, l = t ++ l.dropWhile p ∧ t.all p = true := by
  induction l with
  | nil => exact ⟨[], rfl, rfl⟩
  | cons x xs ih =>
      by_cases hx : p x = true
      · obtain ⟨t, ht, hall⟩ := ih
        refine ⟨x :: t, ?_, ?_⟩
        · simp only [List.dropWhile_cons, hx, if_true, List.cons_append]
          exact congrArg (x :: ·) ht
        · simp [hx, hall]
      · refine ⟨[], ?_, rfl⟩
        simp [List.dropWhile_cons, hx]

theorem dropWhile_head?_not {α : Type} (p : α → Bool) :
    ∀ (l : List α) (a : α), (l.dropWhile p).head? = some a → p a = false := by
  intro l
  induction l with
  | nil => intro a h; simp [List.dropWhile] at h
  | cons x xs ih =>
      intro a h
      by_cases hx : p x = true
      · rw [List.dropWhile_cons, if_pos hx] at h
        exact ih a h
      · rw [List.dropWhile_cons, if_neg hx, List.head?_cons] at h
        cases h
        simpa using hx

theorem all_reverse_eq {α : Type} (p : α → Bool) (l : List α) :
    l.reverse.all p = l.all p := by
  induction l with
  | nil => rfl
  | cons x xs ih => simp [List.all_append, ih, Bool.and_comm]

theorem pyStrip_decomp (l : List Nat) :
    ∃ pre suf, l = pre ++ pyStrip l ++ suf ∧ pre.all isPyWs = true ∧ suf.all isPyWs = true := by
  obtain ⟨pre, hpre, hpreAll⟩ := dropWhile_decomp isPyWs l
  obtain ⟨t, ht, htAll⟩ := dropWhile_decomp isPyWs (l.dropWhile isPyWs).reverse
  refine ⟨pre, t.reverse, ?_, hpreAll, ?_⟩
  · have hd : l.dropWhile isPyWs = pyStrip l ++ t.reverse := by
      have := congrArg List.reverse ht
      simpa [pyStrip, List.reverse_append] using this
    calc l = pre ++ l.dropWhile isPyWs := hpre
      _ = pre ++ (pyStrip l ++ t.reverse) := by rw [hd]
      _ = pre ++ pyStrip l ++ t.reverse := by rw [List.append_assoc]
  · rw [all_reverse_eq]
    exact htAll

theorem pyStrip_head (l : List Nat) :
    ∀ a, (pyStrip l).head? = some a → isPyWs a = false := by
  intro a h
  obtain ⟨t, ht, _⟩ := dropWhile_decomp isPyWs (l.dropWhile isPyWs).reverse
  have hd : l.dropWhile isPyWs = pyStrip l ++ t.reverse := by
    have := congrArg List.reverse ht
    simpa [pyStrip, List.reverse_append] using this
  apply dropWhile_head?_not isPyWs l a
  cases hp : pyStrip l with
  | nil => rw [hp] at h; simp at h
  | cons b rest =>
      rw [hp, List.head?_cons] at h
      cases h
      rw [hd, hp, List.cons_append, List.head?_cons]

theorem pyStrip_last (l : List Nat) :
    ∀ a, (pyStrip l).getLast? = some a → isPyWs a = false := by
  intro a h
  apply dropWhile_head?_not isPyWs (l.dropWhile isPyWs).reverse a
  rw [← List.getLast?_reverse]
  exact h

/-! Resolution of the claims. -/

/-- Claim C1: for every artifact byte sequence and every key, `generate_hmac_signature`
computes the integrity tag as HMAC-SHA256(key, UTF-8 bytes of the lowercase-hex SHA-256
digest of the file bytes), hex-encoded lowercase, together with that digest; the result
is a function of the file bytes and the key alone. -/
theorem apk_tag_is_digest_then_mac (apkBytes key : List Nat) :
    generate_hmac_signature apkBytes key =
      (hmacSha256Hex key (utf8Encode (bytesToHex (sha256 apkBytes))), bytesToHex (sha256 apkBytes)) := by
  unfold generate_hmac_signature calculate_apk_hash
  rw [streamApkHash_eq 8192 (by omega) apkBytes]

/-- Claim C2: the verifier in `generate_secure_signature.py` compares tags with Python
string equality, which stops at the first differing character, so its comparison count
depends on where the first difference occurs: against the recomputed tag "aaaa", the
equal-length expected tags "baaa" (difference first) and "aaab" (difference last) take
1 and 4 character comparisons respectively.  This contradicts the claimed constant-time
comparison. -/
theorem verify_comparison_cost_depends_on_position :
    (signatureEqCheck "aaaa" "baaa").1 = false ∧
    (signatureEqCheck "aaaa" "aaab").1 = false ∧
    (signatureEqCheck "aaaa" "baaa").2 = 1 ∧
    (signatureEqCheck "aaaa" "aaab").2 = 4 := by decide

/-- Claim C3: for every deviceId and packageName, identity-bound key derivation returns
exactly the 32-byte SHA-256 digest of the UTF-8 encoding of
"<deviceId>:<packageName>:SecurityModule:HMAC". -/
theorem identity_bound_key_is_sha256_of_binding (device_id package_name : String) :
    generate_device_bound_key_simulation device_id package_name =
      sha256 (utf8Encode (device_id ++ ":" ++ package_name ++ ":SecurityModule:HMAC")) ∧
    (generate_device_bound_key_simulation device_id package_name).length = 32 :=
  ⟨rfl, sha256_length _⟩

/-- Claim C4: for every positive chunk size, folding the streaming hash object over the
consecutive chunks of the input yields the lowercase-hex SHA-256 digest of the whole
byte sequence, so the digest depends only on the bytes and not on the chunk size; in
particular `calculate_apk_hash` (chunk size 8192) computes the one-shot digest. -/
theorem streaming_digest_independent_of_chunk_size (n : Nat) (hn : 0 < n) (bytes : List Nat) :
    streamApkHash n bytes = bytesToHex (sha256 bytes) ∧
    calculate_apk_hash bytes = bytesToHex (sha256 bytes) :=
  ⟨streamApkHash_eq n hn bytes, streamApkHash_eq 8192 (by omega) bytes⟩

/-- Witness for C4 at chunk size 3 and a concrete 5-byte input. -/
theorem streaming_digest_independent_of_chunk_size_witness :
    0 < 3 ∧ (streamApkHash 3 [104, 105, 33, 7, 200] = bytesToHex (sha256 [104, 105, 33, 7, 200]) ∧
      calculate_apk_hash [104, 105, 33, 7, 200] = bytesToHex (sha256 [104, 105, 33, 7, 200])) :=
  ⟨by decide, streaming_digest_independent_of_chunk_size 3 (by decide) [104, 105, 33, 7, 200]⟩

/-- Claim C5: with an environment-variable key source, an unset variable or one set to
the empty string makes the config-signing invocation fail with the KeyUnavailable exit
(code 2) before any tag is computed; an empty value is never used as a zero-length key. -/
theorem env_key_empty_or_unset_fails (name : String) (env : String → Option String)
    (fs : String → Option (List Nat)) (config : List Nat)
    (h : env name = none ∨ env name = some "") :
    sign_config_main (KeySource.envVar name) env fs config =
      Except.error SignError.keyUnavailable := by
  rcases h with h | h <;> simp [sign_config_main, loadKey, h]

/-- Witness for C5: a present-but-empty environment variable at a concrete invocation. -/
theorem env_key_empty_or_unset_fails_witness :
    sign_config_main (KeySource.envVar "CONFIG_HMAC_KEY") (fun _ => some "") (fun _ => none)
      [104, 105] = Except.error SignError.keyUnavailable :=
  env_key_empty_or_unset_fails "CONFIG_HMAC_KEY" (fun _ => some "") (fun _ => none)
    [104, 105] (Or.inr rfl)

/-- Claim C6 (code bug): a key file whose contents are whitespace only strips to the
empty key, and `sign_config_hmac.py` then proceeds to compute a tag with that
zero-length key instead of failing with KeyUnavailable. -/
theorem keyfile_whitespace_only_signs_with_empty_key :
    pyStrip [10, 32, 9] = [] ∧
    sign_config_main (KeySource.keyFile "hmac_key.txt") (fun _ => none)
      (fun _ => some [10, 32, 9]) [104, 105] = Except.ok (hmac_sha256_hex [104, 105] []) :=
  ⟨by decide, rfl⟩

/-- Counterexample to claim C7 as stated: a key file starting with a space byte does not
keep its leading byte; `bytes.strip()` removes it, so the key for contents " key" is
"key", not " key". -/
theorem keyfile_leading_whitespace_stripped :
    loadKey (KeySource.keyFile "hmac.key") (fun _ => none) (fun _ => some [32, 107, 101, 121]) =
      Except.ok [107, 101, 121] ∧
    ([107, 101, 121] : List Nat) ≠ [32, 107, 101, 121] :=
  ⟨rfl, by decide⟩

/-- Claim C7 as amended: for a readable key file, the key bytes are the file's contents
with both leading and trailing whitespace/newline bytes trimmed; the interior is kept
as-is (the key is a contiguous segment of the contents flanked by whitespace, and when
nonempty it neither starts nor ends with whitespace). -/
theorem keyfile_key_trims_both_ends (path : String) (env : String → Option String)
    (fs : String → Option (List Nat)) (c : List Nat) (h : fs path = some c) :
    loadKey (KeySource.keyFile path) env fs = Except.ok (pyStrip c) ∧
    (∃ pre suf, c = pre ++ pyStrip c ++ suf ∧ pre.all isPyWs = true ∧ suf.all isPyWs = true) ∧
    (∀ a, (pyStrip c).head? = some a → isPyWs a = false) ∧
    (∀ a, (pyStrip c).getLast? = some a → isPyWs a = false) := by
  refine ⟨?_, pyStrip_decomp c, pyStrip_head c, pyStrip_last c⟩
  simp [loadKey, h]

/-- Witness for C7 (amended) at concrete file contents " k\n". -/
theorem keyfile_key_trims_both_ends_witness :
    loadKey (KeySource.keyFile "hmac.key") (fun _ => none) (fun _ => some [32, 107, 10]) =
      Except.ok (pyStrip [32, 107, 10]) ∧
    (∃ pre suf, [32, 107, 10] = pre ++ pyStrip [32, 107, 10] ++ suf ∧
      pre.all isPyWs = true ∧ suf.all isPyWs = true) ∧
    (∀ a, (pyStrip [32, 107, 10]).head? = some a → isPyWs a = false) ∧
    (∀ a, (pyStrip [32, 107, 10]).getLast? = some a → isPyWs a = false) :=
  keyfile_key_trims_both_ends "hmac.key" (fun _ => none) (fun _ => some [32, 107, 10])
    [32, 107, 10] rfl

/-- Claim C9: when the output path ends in ".json", `main` persists the structured
record, which contains exactly the keys apk_file, apk_path, apk_hash, hmac_signature,
key_type, timestamp, algorithm, hash_algorithm, version in that order, with
algorithm = "HMAC-SHA256", hash_algorithm = "SHA-256" and the format-version field
"version" present with value "1.0.0". -/
theorem structured_record_exact_fields
    (output_path apk_file_name apk_abs_path apk_hash hmac_sig key_type : String)
    (timestamp : Nat) (h : pyEndsWith output_path ".json" = true) :
    main_write output_path
        (create_signature_data apk_file_name apk_abs_path apk_hash hmac_sig key_type timestamp)
        hmac_sig =
      WrittenArtifact.structured
        (create_signature_data apk_file_name apk_abs_path apk_hash hmac_sig key_type timestamp) ∧
    (create_signature_data apk_file_name apk_abs_path apk_hash hmac_sig key_type timestamp).map
        Prod.fst =
      ["apk_file", "apk_path", "apk_hash", "hmac_signature", "key_type", "timestamp",
       "algorithm", "hash_algorithm", "version"] ∧
    (create_signature_data apk_file_name apk_abs_path apk_hash hmac_sig key_type
        timestamp).lookup "algorithm" = some (JVal.str "HMAC-SHA256") ∧
    (create_signature_data apk_file_name apk_abs_path apk_hash hmac_sig key_type
        timestamp).lookup "hash_algorithm" = some (JVal.str "SHA-256") ∧
    (create_signature_data apk_file_name apk_abs_path apk_hash hmac_sig key_type
        timestamp).lookup "version" = some (JVal.str "1.0.0") := by
  refine ⟨?_, rfl, ?_, ?_, ?_⟩
  · simp [main_write, h]
  · rfl
  · rfl
  · rfl

/-- Witness for C9 at a concrete ".json" output path and concrete record fields. -/
theorem structured_record_exact_fields_witness :
    main_write "app_hmac.json"
        (create_signature_data "app.apk" "/b/app.apk" "ffee" "aabb" "software" 1700000000)
        "aabb" =
      WrittenArtifact.structured
        (create_signature_data "app.apk" "/b/app.apk" "ffee" "aabb" "software" 1700000000) ∧
    (create_signature_data "app.apk" "/b/app.apk" "ffee" "aabb" "software" 1700000000).map
        Prod.fst =
      ["apk_file", "apk_path", "apk_hash", "hmac_signature", "key_type", "timestamp",
       "algorithm", "hash_algorithm", "version"] ∧
    (create_signature_data "app.apk" "/b/app.apk" "ffee" "aabb" "software"
        1700000000).lookup "algorithm" = some (JVal.str "HMAC-SHA256") ∧
    (create_signature_data "app.apk" "/b/app.apk" "ffee" "aabb" "software"
        1700000000).lookup "hash_algorithm" = some (JVal.str "SHA-256") ∧
    (create_signature_data "app.apk" "/b/app.apk" "ffee" "aabb" "software"
        1700000000).lookup "version" = some (JVal.str "1.0.0") :=
  structured_record_exact_fields "app_hmac.json" "app.apk" "/b/app.apk" "ffee" "aabb"
    "software" 1700000000 (by decide)

/-- Claim C10: the literal key source accepts the empty string: `--key ""` derives the
zero-length key and a tag is computed with no failure, in contrast to the
environment-variable source, where an empty value is rejected with KeyUnavailable. -/
theorem literal_empty_key_accepted (env : String → Option String)
    (fs : String → Option (List Nat)) (config : List Nat) (name : String) :
    sign_config_main (KeySource.literal "") env fs config =
      Except.ok (hmac_sha256_hex config []) ∧
    sign_config_main (KeySource.envVar name) (fun _ => some "") fs config =
      Except.error SignError.keyUnavailable :=
  ⟨rfl, rfl⟩

end SecurityKit
